import Mathlib

/-!
# SMV tile dispatch drivers

A shallow embedding of `smaug/operators/smv/smv_eltwise_mul_op.cpp` and
`smaug/operators/smv/smv_pooling_op.cpp`: the tile dispatch drivers `runX` and
`runNHWC`, the tile-size computation of `SmvEltwiseMulOp::tile` and the two
`run` lifecycles.

Conventions of the embedding.

* Every effect of the drivers on the outside world (memory-type setup, forcing
  tile data, mapping a buffer into the accelerator, invoking a kernel, staging,
  flattening) is recorded, in program order, as an `Event` of a trace.  The
  debug printing to `dout` and `std::cout` and the `gem5::ScopedStats` timing
  markers are not recorded.
* A failed `assert` aborts the whole run: an `Outcome` carries the trace
  produced up to that point together with the failure.
* The C++ `int` values of these files are sizes, counts, extents and indices;
  they are embedded as `Nat`.  Signed overflow is undefined behaviour in C++
  and is outside the model: a theorem that states the value of the accumulated
  `ofmapOffset` assumes that the accumulated sum fits a 32-bit `int`.
* Reading a tile slot that does not exist is undefined behaviour in C++ and is
  outside the model as well: a theorem that states what `runNHWC` does at every
  tile coordinate assumes that every slot the loops read exists.
-/

namespace Smaug

/-! ## Data model -/

/-- Axis-order tag of a tensor shape (the `DataLayout` enumeration). -/
inductive DataLayout where
  | UnknownLayout
  | NCHW
  | NHWC
  | NC
  | CN
  | X
  deriving DecidableEq, Repr

/-- Modelled from the spec: `TensorShape` (declared in the tensor header, which
is not among the sources) is an ordered sequence of per-axis extents plus a
layout tag and an alignment padding per axis. -/
structure TensorShape where
  dims : List Nat
  layout : DataLayout
  padding : List Nat
  deriving DecidableEq, Repr

namespace TensorShape

/-- The extent of axis `i`, `shape[i]`: the unpadded extent. -/
def get (s : TensorShape) (i : Nat) : Nat := s.dims.getD i 0

/-- The alignment padding of axis `i`, `shape.getPadding(i)`. -/
def getPadding (s : TensorShape) (i : Nat) : Nat := s.padding.getD i 0

/-- The padded extents: each extent plus the padding of its axis. -/
def storageDims : List Nat → List Nat → List Nat
  | [], _ => []
  | d :: ds, [] => d :: storageDims ds []
  | d :: ds, p :: ps => (d + p) :: storageDims ds ps

/-- The logical element count `shape.size()`: the product of the unpadded
extents. -/
def size (s : TensorShape) : Nat := s.dims.prod

/-- Modelled from the spec: `shape.storageSize()` is the product of the padded
extents ("storage size = product of padded extents"). -/
def storageSize (s : TensorShape) : Nat := (storageDims s.dims s.padding).prod

/-- Modelled from the spec: shape comparison `==` of the entry check of
`SmvEltwiseMulOp::run`; two shapes agree when their extents and layout tags
agree. -/
def same (a b : TensorShape) : Bool := a.dims == b.dims && a.layout == b.layout

end TensorShape

/-- A tensor: a buffer, identified by `data`, described by a shape. -/
structure Tensor where
  data : Nat
  shape : TensorShape
  deriving DecidableEq, Repr

instance : Inhabited Tensor := ⟨⟨0, ⟨[], DataLayout.UnknownLayout, []⟩⟩⟩

/-- Modelled from the spec: `TiledTensor` (declared in the tensor header, which
is not among the sources) holds the grid extents per axis (`getShape()`), an
index function mapping a tile coordinate to a linear slot (`startIndex()`), and
the per-slot tile tensors. -/
structure TiledTensor where
  shape : TensorShape
  index : Nat → Nat → Nat → Nat → Nat
  tiles : List Tensor

namespace TiledTensor

/-- The number of tiles, `size()`. -/
def size (t : TiledTensor) : Nat := t.tiles.length

/-- The tile in slot `i`, as returned by `operator[]` and by
`getTileWithData`.  The source reads the slot without a bound check; for an
index outside the tile list, where the source has no defined behaviour, the
value is the default tensor. -/
def tile (t : TiledTensor) (i : Nat) : Tensor := t.tiles.getD i default

end TiledTensor

/-- Where a tensor lives before a kernel invocation (`MemoryType`). -/
inductive MemoryType where
  | dram
  | acp
  | cache
  | spad
  deriving DecidableEq, Repr

/-- The host array names used by the two drivers. -/
inductive HostArray where
  | host_inputs
  | host_inputs0
  | host_inputs1
  | host_results
  deriving DecidableEq, Repr

/-- The kind of a pooling operator (`opType`). -/
inductive OpType where
  | MaxPooling
  | AveragePooling
  deriving DecidableEq, Repr

/-- The pooling kernel entry points. -/
inductive PoolingKernel where
  | smv_maxpooling_nhwc_vec_fxp
  | smv_avgpooling_nhwc_vec_fxp
  deriving DecidableEq, Repr

/-- The size in bytes of one `float16` element. -/
def sizeofFloat16 : Nat := 2

/-- The observable effects of the drivers, in the order the code performs
them. -/
inductive Event where
  /-- The call `setArrayMemTypeIfSimulating(hw, name, memType)`. -/
  | setArrayMemType (name : HostArray) (memType : MemoryType)
  /-- The call `getTileWithData(i)`, which forces the data of the tile to be
  resident before returning it. -/
  | tileData (tile : Tensor)
  /-- The call `mapArrayToAccel(hw, name, tile->data, bytes)`. -/
  | mapArrayToAccel (name : HostArray) (tile : Tensor) (bytes : Nat)
  /-- The call `invokeKernel(kEltwiseOpHw, smv_eltwise_mul_nc_vec_fxp, ...)`
  on three tiles with a work size. -/
  | invokeEltwiseMul (input0 input1 output : Tensor) (workSize : Nat)
  /-- The call `invokeKernel(kPoolingHw, kernel, ...)`. -/
  | invokePooling (kernel : PoolingKernel) (input output : Tensor)
      (inputDims outputDims : List Nat) (inputPad outputPad : Nat)
      (poolRows poolCols strideRows strideCols : Nat) (ofmapStart : Nat)
  /-- The call `tiledTensors[slot].copyDataToAllTiles()`. -/
  | copyDataToAllTiles (slot : Nat)
  /-- The call `flattenTiledTensor(tiledTensors[slot], outputs)`. -/
  | flattenTiledTensor (slot : Nat)
  /-- The call `tiledTensors[slot].untile()`. -/
  | untile (slot : Nat)
  deriving DecidableEq, Repr

/-- The fatal failures of the two operators. -/
inductive Failure where
  /-- The entry assertion of `runX`: the three tile counts are not all equal. -/
  | tileCountMismatch
  /-- The assertion of `runNHWC`: "The inputs/outputs tiles can have different
  number of channels only when the outputs don't need channelwise tiling." -/
  | invalidTilingConfiguration
  /-- The entry assertion of `SmvEltwiseMulOp::run`. -/
  | shapeMismatch
  /-- The entry assertions of `SmvPoolingOp::run`. -/
  | unsupportedLayout
  deriving DecidableEq, Repr

/-- The result of running a piece of code: the events performed, and the
failure that aborted it, if any. -/
structure Outcome where
  trace : List Event
  failure : Option Failure
  deriving DecidableEq, Repr

namespace Outcome

/-- Straight-line code performing the given events. -/
def emit (es : List Event) : Outcome := ⟨es, none⟩

/-- A failed assertion. -/
def abort (f : Failure) : Outcome := ⟨[], some f⟩

/-- Sequential composition: the second part runs only when the first one did
not abort. -/
def andThen (a : Outcome) (b : Outcome) : Outcome :=
  match a.failure with
  | some _ => a
  | none => ⟨a.trace ++ b.trace, b.failure⟩

end Outcome

/-- The loop `for (int i = 0; i < n; i++) body(i)` over the listed values of
`i`, stopping at the first iteration that aborts. -/
def forEach : List Nat → (Nat → Outcome) → Outcome
  | [], _ => Outcome.emit []
  | i :: rest, body => (body i).andThen (forEach rest body)

/-- The kernel invocations of a trace. -/
def kernelCalls (t : List Event) : List Event :=
  t.filter fun e =>
    match e with
    | Event.invokeEltwiseMul _ _ _ _ => true
    | Event.invokePooling _ _ _ _ _ _ _ _ _ _ _ _ => true
    | _ => false

/-- The buffer mappings of a trace. -/
def mapCalls (t : List Event) : List Event :=
  t.filter fun e =>
    match e with
    | Event.mapArrayToAccel _ _ _ => true
    | _ => false

/-! ## The elementwise multiplication operator -/

/-- The state of an `SmvEltwiseMulOp` that `runX`, `tile` and `run` read. -/
structure SmvEltwiseMulOp where
  inputs0 : Tensor
  inputs1 : Tensor
  outputs : Tensor
  inputsMemType : MemoryType
  outputsMemType : MemoryType
  tiledTensors0 : TiledTensor
  tiledTensors1 : TiledTensor
  tiledTensors2 : TiledTensor

namespace SmvEltwiseMulOp

/-- The body of the loop of `runX` for tile index `i`. -/
def runXTile (inputs0 inputs1 outputs : TiledTensor) (i : Nat) : Outcome :=
  let input0Tile := inputs0.tile i
  let input1Tile := inputs1.tile i
  let outputTile := outputs.tile i
  let inputShape := input0Tile.shape
  let outputShape := outputTile.shape
  Outcome.emit
    [ Event.tileData input0Tile,
      Event.tileData input1Tile,
      Event.mapArrayToAccel HostArray.host_inputs0 input0Tile
        (inputShape.storageSize * sizeofFloat16),
      Event.mapArrayToAccel HostArray.host_inputs1 input1Tile
        (inputShape.storageSize * sizeofFloat16),
      Event.mapArrayToAccel HostArray.host_results outputTile
        (outputShape.storageSize * sizeofFloat16),
      Event.invokeEltwiseMul input0Tile input1Tile outputTile
        inputShape.storageSize ]

/-- The tile dispatcher `SmvEltwiseMulOp::runX`. -/
def runX (op : SmvEltwiseMulOp) (inputs0 inputs1 outputs : TiledTensor) : Outcome :=
  if inputs0.size = inputs1.size ∧ inputs0.size = outputs.size then
    (Outcome.emit
      [ Event.setArrayMemType HostArray.host_inputs0 op.inputsMemType,
        Event.setArrayMemType HostArray.host_inputs1 op.inputsMemType,
        Event.setArrayMemType HostArray.host_results op.outputsMemType ]).andThen
    (forEach (List.range inputs0.size) (runXTile inputs0 inputs1 outputs))
  else
    Outcome.abort Failure.tileCountMismatch

/-- The local `maxTileSize` of `SmvEltwiseMulOp::tile`:
`std::min(SpadSize() / dataTypeSize, storageSize)`. -/
def maxTileSize (spadSize dataTypeSize storageSize : Nat) : Nat :=
  min (spadSize / dataTypeSize) storageSize

/-- The method `SmvEltwiseMulOp::tile`.  The backend constant
`SmvBackend::SpadSize()`, the element size of the first input, the `TensorShape`
constructor applied to `{ 1, maxTileSize }`, `DataLayout::NC` and
`SmvBackend::Alignment`, and the tiler `generateTiledTensorPerBatchNC` are not
among the sources; they are parameters. -/
def tile (op : SmvEltwiseMulOp) (spadSize dataTypeSize : Nat)
    (tileShapeOf : Nat → TensorShape)
    (generateTiledTensorPerBatchNC : Tensor → TensorShape → TiledTensor) :
    SmvEltwiseMulOp :=
  let maxTileSize := maxTileSize spadSize dataTypeSize op.inputs0.shape.storageSize
  let tileShape := tileShapeOf maxTileSize
  { op with
    tiledTensors0 := generateTiledTensorPerBatchNC op.inputs0 tileShape
    tiledTensors1 := generateTiledTensorPerBatchNC op.inputs1 tileShape
    tiledTensors2 := generateTiledTensorPerBatchNC op.outputs tileShape }

/-- The lifecycle `SmvEltwiseMulOp::run`. -/
def run (op : SmvEltwiseMulOp) : Outcome :=
  if op.inputs0.shape.same op.inputs1.shape ∧ op.inputs0.shape.same op.outputs.shape then
    (Outcome.emit [Event.copyDataToAllTiles 0, Event.copyDataToAllTiles 1]).andThen
      ((runX op op.tiledTensors0 op.tiledTensors1 op.tiledTensors2).andThen
        (Outcome.emit [Event.flattenTiledTensor 2]))
  else
    Outcome.abort Failure.shapeMismatch

end SmvEltwiseMulOp

/-! ## The pooling operator -/

/-- The state of an `SmvPoolingOp` that `runNHWC` and `run` read. -/
structure SmvPoolingOp where
  opType : OpType
  input : Tensor
  output : Tensor
  inputsMemType : MemoryType
  outputsMemType : MemoryType
  poolingRowSize : Nat
  poolingColSize : Nat
  poolingRowStride : Nat
  poolingColStride : Nat
  tiledTensors0 : TiledTensor
  tiledTensors1 : TiledTensor

namespace SmvPoolingOp

/-- The kernel entry point selected by the operator kind. -/
def kernel (op : SmvPoolingOp) : PoolingKernel :=
  if op.opType = OpType.MaxPooling then PoolingKernel.smv_maxpooling_nhwc_vec_fxp
  else PoolingKernel.smv_avgpooling_nhwc_vec_fxp

/-- The kernel invocation of `runNHWC` on an input tile and an output tile with
a given `ofmapStart`.  The trailing `&sampling` argument, a fixed attribute of
the operator, is not recorded. -/
def invoke (op : SmvPoolingOp) (inputTile outputTile : Tensor) (ofmapStart : Nat) : Event :=
  let inputShape := inputTile.shape
  let outputShape := outputTile.shape
  Event.invokePooling op.kernel inputTile outputTile
    [inputShape.get 0, inputShape.get 1, inputShape.get 2, inputShape.get 3]
    [outputShape.get 0, outputShape.get 1, outputShape.get 2, outputShape.get 3]
    (inputShape.getPadding 3) (outputShape.getPadding 3)
    op.poolingRowSize op.poolingColSize op.poolingRowStride op.poolingColStride
    ofmapStart

/-- The events of one iteration of the channel loop of `runNHWC`, up to and
including the kernel invocation. -/
def dispatchTile (op : SmvPoolingOp) (inputTile outputTile : Tensor) (ofmapStart : Nat) :
    List Event :=
  [ Event.tileData inputTile,
    Event.mapArrayToAccel HostArray.host_inputs inputTile
      (inputTile.shape.storageSize * sizeofFloat16),
    Event.mapArrayToAccel HostArray.host_results outputTile
      (outputTile.shape.storageSize * sizeofFloat16),
    op.invoke inputTile outputTile ofmapStart ]

/-- The loop `while (iC < inputChanTiles && oC < outputChanTiles)` of
`runNHWC` at the tile position `(N, H, W)`, from the loop state
`(iC, oC, ofmapOffset)`. -/
def channelLoop (op : SmvPoolingOp) (inputs outputs : TiledTensor)
    (inputChanTiles outputChanTiles N H W : Nat) (iC oC ofmapOffset : Nat) : Outcome :=
  if iC < inputChanTiles ∧ oC < outputChanTiles then
    let inputTileIdx := inputs.index N H W iC
    let outputTileIdx := outputs.index N H W oC
    let inputTile := inputs.tile inputTileIdx
    let outputTile := outputs.tile outputTileIdx
    let ofmapStart := if iC = oC then 0 else ofmapOffset
    let body := Outcome.emit (op.dispatchTile inputTile outputTile ofmapStart)
    let ofmapOffset' := ofmapOffset + inputTile.shape.get 3
    if inputChanTiles = outputChanTiles then
      body.andThen
        (channelLoop op inputs outputs inputChanTiles outputChanTiles N H W
          (iC + 1) (oC + 1) ofmapOffset')
    else if outputChanTiles = 1 then
      body.andThen
        (channelLoop op inputs outputs inputChanTiles outputChanTiles N H W
          (iC + 1) oC ofmapOffset')
    else
      body.andThen (Outcome.abort Failure.invalidTilingConfiguration)
  else
    Outcome.emit []
termination_by inputChanTiles - iC
decreasing_by
  all_goals omega

/-- The tile dispatcher `SmvPoolingOp::runNHWC`. -/
def runNHWC (op : SmvPoolingOp) (inputs outputs : TiledTensor) : Outcome :=
  let inputIfmapTiles := inputs.shape.get 0
  let inputRowTiles := inputs.shape.get 1
  let inputColTiles := inputs.shape.get 2
  let inputChanTiles := inputs.shape.get 3
  let outputChanTiles := outputs.shape.get 3
  (Outcome.emit
    [ Event.setArrayMemType HostArray.host_inputs op.inputsMemType,
      Event.setArrayMemType HostArray.host_results op.outputsMemType ]).andThen
  (forEach (List.range inputIfmapTiles) fun N =>
    forEach (List.range inputRowTiles) fun H =>
      forEach (List.range inputColTiles) fun W =>
        channelLoop op inputs outputs inputChanTiles outputChanTiles N H W 0 0 0)

/-- The lifecycle `SmvPoolingOp::run`. -/
def run (op : SmvPoolingOp) : Outcome :=
  if op.input.shape.layout = DataLayout.NHWC ∧ op.output.shape.layout = DataLayout.NHWC then
    (Outcome.emit [Event.copyDataToAllTiles 0]).andThen
      ((runNHWC op op.tiledTensors0 op.tiledTensors1).andThen
        (Outcome.emit [Event.untile 1]))
  else
    Outcome.abort Failure.unsupportedLayout

end SmvPoolingOp

/-! ## Observations on traces -/

/-- The accumulated `ofmapOffset` before the `k`-th channel tile at the tile
position `(N, H, W)`: the sum of the channel extents `shape[3]` of the input
tiles `0 .. k-1` at that position. -/
def chanOffset (inputs : TiledTensor) (N H W k : Nat) : Nat :=
  ((List.range k).map fun j => (inputs.tile (inputs.index N H W j)).shape.get 3).sum

/-- The work size of an elementwise kernel invocation. -/
def Event.workSize : Event → Option Nat
  | Event.invokeEltwiseMul _ _ _ n => some n
  | _ => none

/-- Staging events: logical data copied into all tiles of a tiled tensor. -/
def Event.isStaging : Event → Bool
  | Event.copyDataToAllTiles _ => true
  | _ => false

/-- Flattening events: a tiled tensor reassembled into its logical tensor. -/
def Event.isFlatten : Event → Bool
  | Event.flattenTiledTensor _ => true
  | Event.untile _ => true
  | _ => false

/-- Lifecycle events: the staging and flattening events of `run`, as opposed to
the events of a dispatch driver. -/
def Event.isLifecycle (e : Event) : Bool := e.isStaging || e.isFlatten

/-! ## Concrete grids -/

/-- The row-major linear index of the tile coordinate `(n, h, w, c)` in a grid
of the given extents. -/
def rowMajor (dims : List Nat) (n h w c : Nat) : Nat :=
  ((n * dims.getD 1 0 + h) * dims.getD 2 0 + w) * dims.getD 3 0 + c

/-- A four-dimensional tile grid of the given extents over the listed tiles,
indexed row-major. -/
def grid (dims : List Nat) (tiles : List Tensor) : TiledTensor :=
  ⟨⟨dims, DataLayout.NHWC, []⟩, rowMajor dims, tiles⟩

/-- A tile of an NHWC tensor with the given buffer, extents and channel
padding. -/
def nhwcTile (data n h w c pad : Nat) : Tensor :=
  ⟨data, ⟨[n, h, w, c], DataLayout.NHWC, [0, 0, 0, pad]⟩⟩

/-- A max-pooling operator with a 2x2 window and stride 2 over the given tile
grids. -/
def poolOp (inputs outputs : TiledTensor) : SmvPoolingOp :=
  { opType := OpType.MaxPooling
    input := nhwcTile 100 1 8 8 24 0
    output := nhwcTile 200 1 4 4 24 0
    inputsMemType := MemoryType.dram
    outputsMemType := MemoryType.dram
    poolingRowSize := 2
    poolingColSize := 2
    poolingRowStride := 2
    poolingColStride := 2
    tiledTensors0 := inputs
    tiledTensors1 := outputs }

/-- Two input channel tiles, of 16 and 8 channels. -/
def in2 : TiledTensor :=
  grid [1, 1, 1, 2] [nhwcTile 1 1 8 8 16 0, nhwcTile 2 1 8 8 8 0]

/-- A single output tile holding all 24 channels. -/
def out1 : TiledTensor :=
  grid [1, 1, 1, 1] [nhwcTile 11 1 4 4 24 0]

/-- Three input channel tiles of 8 channels each. -/
def in3 : TiledTensor :=
  grid [1, 1, 1, 3] [nhwcTile 1 1 8 8 8 0, nhwcTile 2 1 8 8 8 0, nhwcTile 3 1 8 8 8 0]

/-- Two output channel tiles, of 16 and 8 channels. -/
def out2 : TiledTensor :=
  grid [1, 1, 1, 2] [nhwcTile 11 1 4 4 16 0, nhwcTile 12 1 4 4 8 0]

/-- An input grid of two row tiles by two channel tiles. -/
def inRows : TiledTensor :=
  grid [1, 2, 1, 2]
    [nhwcTile 1 1 4 8 16 0, nhwcTile 2 1 4 8 8 0, nhwcTile 3 1 4 8 16 0,
     nhwcTile 4 1 4 8 8 0]

/-- An output grid of two row tiles by two channel tiles. -/
def outRows : TiledTensor :=
  grid [1, 2, 1, 2]
    [nhwcTile 11 1 2 4 16 0, nhwcTile 12 1 2 4 8 0, nhwcTile 13 1 2 4 16 0,
     nhwcTile 14 1 2 4 8 0]

/-- An input grid with a single tile. -/
def inOne : TiledTensor :=
  grid [1, 1, 1, 1] [nhwcTile 1 1 8 8 24 0]

/-- An output grid with two batch tiles. -/
def outBatch2 : TiledTensor :=
  grid [2, 1, 1, 1] [nhwcTile 11 1 4 4 24 0, nhwcTile 12 1 4 4 24 0]

/-- A tile of an NC tensor with the given buffer, extents and column padding. -/
def ncTile (data n c pad : Nat) : Tensor :=
  ⟨data, ⟨[n, c], DataLayout.NC, [0, pad]⟩⟩

/-- A tiled NC tensor with the listed tiles in linear order. -/
def tileRow (tiles : List Tensor) : TiledTensor :=
  ⟨⟨[1, tiles.length], DataLayout.NC, []⟩, fun n c _ _ => n * tiles.length + c, tiles⟩

/-- An elementwise multiplication operator on tensors of `n x c` elements, the
rows padded by `pad`, over the given tiled tensors. -/
def eltOp (n c pad : Nat) (t0 t1 t2 : TiledTensor) : SmvEltwiseMulOp :=
  { inputs0 := ncTile 100 n c pad
    inputs1 := ncTile 101 n c pad
    outputs := ncTile 102 n c pad
    inputsMemType := MemoryType.dram
    outputsMemType := MemoryType.dram
    tiledTensors0 := t0
    tiledTensors1 := t1
    tiledTensors2 := t2 }

/-- Two tiles of 16 elements. -/
def eltA : TiledTensor := tileRow [ncTile 1 1 16 0, ncTile 2 1 16 0]

/-- Two tiles of 16 elements. -/
def eltB : TiledTensor := tileRow [ncTile 3 1 16 0, ncTile 4 1 16 0]

/-- Two tiles of 16 elements. -/
def eltC : TiledTensor := tileRow [ncTile 5 1 16 0, ncTile 6 1 16 0]

/-- One tile of 12 elements padded to 16. -/
def padA : TiledTensor := tileRow [ncTile 1 1 12 4]

/-- One tile of 12 elements padded to 16. -/
def padB : TiledTensor := tileRow [ncTile 2 1 12 4]

/-- One tile of 12 elements padded to 16. -/
def padC : TiledTensor := tileRow [ncTile 3 1 12 4]

/-- One tile of 8 elements. -/
def shortB : TiledTensor := tileRow [ncTile 2 1 8 0]

/-- One tile of 16 elements. -/
def oneA : TiledTensor := tileRow [ncTile 1 1 16 0]

/-- One tile of 16 elements. -/
def oneC : TiledTensor := tileRow [ncTile 3 1 16 0]

/-! ## Sequencing and loops -/

theorem emit_andThen (es : List Event) (b : Outcome) :
    (Outcome.emit es).andThen b = ⟨es ++ b.trace, b.failure⟩ := rfl

theorem emit_trace (es : List Event) : (Outcome.emit es).trace = es := rfl

theorem emit_andThen_emit (es fs : List Event) :
    (Outcome.emit es).andThen (Outcome.emit fs) = Outcome.emit (es ++ fs) := rfl

theorem andThen_of_failure (a b : Outcome) (f : Failure) (h : a.failure = some f) :
    a.andThen b = a := by
  simp [Outcome.andThen, h]

theorem forEach_emit (l : List Nat) (body : Nat → Outcome) (f : Nat → List Event)
    (h : ∀ i ∈ l, body i = Outcome.emit (f i)) :
    forEach l body = Outcome.emit (l.flatMap f) := by
  induction l with
  | nil => rfl
  | cons i rest ih =>
    have hi : body i = Outcome.emit (f i) := h i (List.mem_cons_self i rest)
    have hrest : forEach rest body = Outcome.emit (rest.flatMap f) :=
      ih fun j hj => h j (List.mem_cons_of_mem i hj)
    simp [forEach, hi, hrest, emit_andThen_emit]

theorem forEach_range_abort (n : Nat) (body : Nat → Outcome) (f : Failure)
    (hn : 0 < n) (h : (body 0).failure = some f) :
    forEach (List.range n) body = body 0 := by
  obtain ⟨m, rfl⟩ : ∃ m, n = m + 1 := ⟨n - 1, by omega⟩
  rw [List.range_succ_eq_map, forEach]
  exact andThen_of_failure _ _ f h

/-! ## Projections of traces -/

theorem kernelCalls_append (a b : List Event) :
    kernelCalls (a ++ b) = kernelCalls a ++ kernelCalls b := by
  simp [kernelCalls]

theorem kernelCalls_flatMap (l : List Nat) (f : Nat → List Event) :
    kernelCalls (l.flatMap f) = l.flatMap fun i => kernelCalls (f i) := by
  simp [kernelCalls, List.filter_flatMap]

theorem flatMap_singleton_eq_map (l : List Nat) (f : Nat → Event) :
    (l.flatMap fun i => [f i]) = l.map f := by
  induction l with
  | nil => rfl
  | cons i rest ih => simp [ih]

theorem length_flatMap_const (l : List Nat) (f : Nat → List Event) (k : Nat)
    (h : ∀ i, (f i).length = k) : (l.flatMap f).length = l.length * k := by
  induction l with
  | nil => simp
  | cons i rest ih => simp [ih, h, Nat.succ_mul, Nat.add_comm]

/-! ## The pooling dispatch driver -/

namespace SmvPoolingOp

theorem channelLoop_equal (op : SmvPoolingOp) (inputs outputs : TiledTensor)
    (C N H W : Nat) :
    ∀ (m i off : Nat), i + m = C →
      channelLoop op inputs outputs C C N H W i i off =
        Outcome.emit ((List.range' i m).flatMap fun c =>
          op.dispatchTile (inputs.tile (inputs.index N H W c))
            (outputs.tile (outputs.index N H W c)) 0) := by
  intro m
  induction m with
  | zero =>
    intro i off h
    rw [channelLoop, if_neg (by omega)]
    rfl
  | succ m ih =>
    intro i off h
    rw [channelLoop, if_pos (by omega)]
    simp only [if_true]
    rw [ih (i + 1) _ (by omega), emit_andThen_emit, List.range'_succ]
    simp

theorem channelLoop_single (op : SmvPoolingOp) (inputs outputs : TiledTensor)
    (n N H W : Nat) (hn : n ≠ 1) :
    ∀ (m i : Nat), i + m = n →
      channelLoop op inputs outputs n 1 N H W i 0 (chanOffset inputs N H W i) =
        Outcome.emit ((List.range' i m).flatMap fun k =>
          op.dispatchTile (inputs.tile (inputs.index N H W k))
            (outputs.tile (outputs.index N H W 0)) (chanOffset inputs N H W k)) := by
  intro m
  induction m with
  | zero =>
    intro i h
    rw [channelLoop, if_neg (by omega)]
    rfl
  | succ m ih =>
    intro i h
    rw [channelLoop, if_pos (by omega)]
    have hstart : (if i = 0 then 0 else chanOffset inputs N H W i) = chanOffset inputs N H W i := by
      by_cases h0 : i = 0
      · subst h0; simp [chanOffset]
      · simp [h0]
    have hoff : chanOffset inputs N H W i + (inputs.tile (inputs.index N H W i)).shape.get 3
        = chanOffset inputs N H W (i + 1) := by
      simp [chanOffset, List.range_succ]
    simp only [hn, if_false, hstart, hoff]
    rw [ih (i + 1) (by omega), emit_andThen_emit, List.range'_succ]
    simp

theorem channelLoop_invalid (op : SmvPoolingOp) (inputs outputs : TiledTensor)
    (inC outC N H W : Nat) (hin : 1 ≤ inC) (hout : 1 ≤ outC) (hne : inC ≠ outC)
    (hone : outC ≠ 1) :
    channelLoop op inputs outputs inC outC N H W 0 0 0 =
      ⟨op.dispatchTile (inputs.tile (inputs.index N H W 0))
        (outputs.tile (outputs.index N H W 0)) 0,
       some Failure.invalidTilingConfiguration⟩ := by
  rw [channelLoop, if_pos (by omega)]
  simp [hne, hone, emit_andThen, Outcome.abort]

theorem kernelCalls_dispatchTile (op : SmvPoolingOp) (a b : Tensor) (k : Nat) :
    kernelCalls (op.dispatchTile a b k) = [op.invoke a b k] := by
  simp [kernelCalls, dispatchTile, invoke]

/-- The events of `runNHWC` before its loops. -/
theorem runNHWC_eq (op : SmvPoolingOp) (inputs outputs : TiledTensor)
    (f : Nat → Nat → Nat → List Event)
    (h : ∀ N H W, channelLoop op inputs outputs (inputs.shape.get 3) (outputs.shape.get 3)
      N H W 0 0 0 = Outcome.emit (f N H W)) :
    runNHWC op inputs outputs =
      Outcome.emit
        ([ Event.setArrayMemType HostArray.host_inputs op.inputsMemType,
           Event.setArrayMemType HostArray.host_results op.outputsMemType ] ++
          (List.range (inputs.shape.get 0)).flatMap fun N =>
            (List.range (inputs.shape.get 1)).flatMap fun H =>
              (List.range (inputs.shape.get 2)).flatMap fun W => f N H W) := by
  unfold runNHWC
  simp only []
  rw [forEach_emit _ _ (fun N => (List.range (inputs.shape.get 1)).flatMap fun H =>
        (List.range (inputs.shape.get 2)).flatMap fun W => f N H W)]
  · rfl
  · intro N _
    apply forEach_emit
    intro H _
    apply forEach_emit
    intro W _
    exact h N H W

theorem kernelCalls_runNHWC_emit (B R Cl : Nat) (m1 m2 : MemoryType)
    (g : Nat → Nat → Nat → List Event) :
    kernelCalls
        ([ Event.setArrayMemType HostArray.host_inputs m1,
           Event.setArrayMemType HostArray.host_results m2 ] ++
          (List.range B).flatMap fun N =>
            (List.range R).flatMap fun H =>
              (List.range Cl).flatMap fun W => g N H W) =
      (List.range B).flatMap fun N =>
        (List.range R).flatMap fun H =>
          (List.range Cl).flatMap fun W => kernelCalls (g N H W) := by
  rw [kernelCalls_append, kernelCalls_flatMap]
  simp only [kernelCalls_flatMap]
  simp [kernelCalls]

theorem runNHWC_equal (op : SmvPoolingOp) (inputs outputs : TiledTensor)
    (h : inputs.shape.get 3 = outputs.shape.get 3) :
    runNHWC op inputs outputs =
      Outcome.emit
        ([ Event.setArrayMemType HostArray.host_inputs op.inputsMemType,
           Event.setArrayMemType HostArray.host_results op.outputsMemType ] ++
          (List.range (inputs.shape.get 0)).flatMap fun N =>
            (List.range (inputs.shape.get 1)).flatMap fun H =>
              (List.range (inputs.shape.get 2)).flatMap fun W =>
                (List.range (inputs.shape.get 3)).flatMap fun c =>
                  op.dispatchTile (inputs.tile (inputs.index N H W c))
                    (outputs.tile (outputs.index N H W c)) 0) := by
  apply runNHWC_eq
  intro N H W
  rw [← h, channelLoop_equal op inputs outputs _ N H W (inputs.shape.get 3) 0 0 (by omega),
    List.range_eq_range']

theorem runNHWC_single (op : SmvPoolingOp) (inputs outputs : TiledTensor)
    (h : outputs.shape.get 3 = 1) :
    runNHWC op inputs outputs =
      Outcome.emit
        ([ Event.setArrayMemType HostArray.host_inputs op.inputsMemType,
           Event.setArrayMemType HostArray.host_results op.outputsMemType ] ++
          (List.range (inputs.shape.get 0)).flatMap fun N =>
            (List.range (inputs.shape.get 1)).flatMap fun H =>
              (List.range (inputs.shape.get 2)).flatMap fun W =>
                (List.range (inputs.shape.get 3)).flatMap fun k =>
                  op.dispatchTile (inputs.tile (inputs.index N H W k))
                    (outputs.tile (outputs.index N H W 0)) (chanOffset inputs N H W k)) := by
  apply runNHWC_eq
  intro N H W
  rw [h]
  by_cases hn : inputs.shape.get 3 = 1
  · rw [hn, channelLoop_equal op inputs outputs 1 N H W 1 0 0 (by omega)]
    simp [List.range'_succ, List.range_succ, chanOffset]
  · have h0 : chanOffset inputs N H W 0 = 0 := by simp [chanOffset]
    have := channelLoop_single op inputs outputs _ N H W hn (inputs.shape.get 3) 0 (by omega)
    rw [h0] at this
    rw [this, List.range_eq_range']

theorem runNHWC_invalid (op : SmvPoolingOp) (inputs outputs : TiledTensor)
    (hB : 1 ≤ inputs.shape.get 0) (hR : 1 ≤ inputs.shape.get 1)
    (hW : 1 ≤ inputs.shape.get 2) (hin : 1 ≤ inputs.shape.get 3)
    (hout : 1 ≤ outputs.shape.get 3) (hne : inputs.shape.get 3 ≠ outputs.shape.get 3)
    (hone : outputs.shape.get 3 ≠ 1) :
    runNHWC op inputs outputs =
      ⟨[ Event.setArrayMemType HostArray.host_inputs op.inputsMemType,
         Event.setArrayMemType HostArray.host_results op.outputsMemType ] ++
        op.dispatchTile (inputs.tile (inputs.index 0 0 0 0))
          (outputs.tile (outputs.index 0 0 0 0)) 0,
       some Failure.invalidTilingConfiguration⟩ := by
  have hloop := channelLoop_invalid op inputs outputs _ _ 0 0 0 hin hout hne hone
  have hcol : (forEach (List.range (inputs.shape.get 2)) fun W =>
      channelLoop op inputs outputs (inputs.shape.get 3) (outputs.shape.get 3) 0 0 W 0 0 0)
      = _ := (forEach_range_abort _ _ Failure.invalidTilingConfiguration hW
        (by rw [hloop])).trans hloop
  have hrow : (forEach (List.range (inputs.shape.get 1)) fun H =>
      forEach (List.range (inputs.shape.get 2)) fun W =>
        channelLoop op inputs outputs (inputs.shape.get 3) (outputs.shape.get 3) 0 H W 0 0 0)
      = _ := (forEach_range_abort _ _ Failure.invalidTilingConfiguration hR
        (by rw [hcol])).trans hcol
  have hbatch : (forEach (List.range (inputs.shape.get 0)) fun N =>
      forEach (List.range (inputs.shape.get 1)) fun H =>
        forEach (List.range (inputs.shape.get 2)) fun W =>
          channelLoop op inputs outputs (inputs.shape.get 3) (outputs.shape.get 3) N H W 0 0 0)
      = _ := (forEach_range_abort _ _ Failure.invalidTilingConfiguration hB
        (by rw [hrow])).trans hrow
  unfold runNHWC
  simp only []
  rw [hbatch]
  rfl

theorem length_grid (B R Cl C : Nat) (f : Nat → Nat → Nat → Nat → Event) :
    ((List.range B).flatMap fun N =>
      (List.range R).flatMap fun H =>
        (List.range Cl).flatMap fun W =>
          (List.range C).map fun c => f N H W c).length = B * R * Cl * C := by
  rw [length_flatMap_const _ _ (R * Cl * C)]
  · simp [Nat.mul_assoc]
  · intro N
    rw [length_flatMap_const _ _ (Cl * C)]
    · simp [Nat.mul_assoc]
    · intro H
      rw [length_flatMap_const _ _ C]
      · simp
      · intro W
        simp

theorem kernelCalls_runNHWC_equal (op : SmvPoolingOp) (inputs outputs : TiledTensor)
    (h : inputs.shape.get 3 = outputs.shape.get 3) :
    kernelCalls (runNHWC op inputs outputs).trace =
      (List.range (inputs.shape.get 0)).flatMap fun N =>
        (List.range (inputs.shape.get 1)).flatMap fun H =>
          (List.range (inputs.shape.get 2)).flatMap fun W =>
            (List.range (inputs.shape.get 3)).map fun c =>
              op.invoke (inputs.tile (inputs.index N H W c))
                (outputs.tile (outputs.index N H W c)) 0 := by
  rw [runNHWC_equal op inputs outputs h, emit_trace, kernelCalls_runNHWC_emit]
  simp only [kernelCalls_flatMap, kernelCalls_dispatchTile, flatMap_singleton_eq_map]

theorem kernelCalls_runNHWC_single (op : SmvPoolingOp) (inputs outputs : TiledTensor)
    (h : outputs.shape.get 3 = 1) :
    kernelCalls (runNHWC op inputs outputs).trace =
      (List.range (inputs.shape.get 0)).flatMap fun N =>
        (List.range (inputs.shape.get 1)).flatMap fun H =>
          (List.range (inputs.shape.get 2)).flatMap fun W =>
            (List.range (inputs.shape.get 3)).map fun k =>
              op.invoke (inputs.tile (inputs.index N H W k))
                (outputs.tile (outputs.index N H W 0)) (chanOffset inputs N H W k) := by
  rw [runNHWC_single op inputs outputs h, emit_trace, kernelCalls_runNHWC_emit]
  simp only [kernelCalls_flatMap, kernelCalls_dispatchTile, flatMap_singleton_eq_map]

theorem failure_runNHWC_valid (op : SmvPoolingOp) (inputs outputs : TiledTensor)
    (h : inputs.shape.get 3 = outputs.shape.get 3 ∨ outputs.shape.get 3 = 1) :
    (runNHWC op inputs outputs).failure = none := by
  rcases h with heq | hone
  · rw [runNHWC_equal op inputs outputs heq]
    rfl
  · rw [runNHWC_single op inputs outputs hone]
    rfl

theorem tile_eq_of_lt (t : TiledTensor) (i : Nat) (h : i < t.size) :
    t.tiles[i]? = some (t.tile i) := by
  have hi : i < t.tiles.length := h
  simp [TiledTensor.tile, List.getD, List.getElem?_eq_getElem hi]

theorem chanOffset_le (inputs : TiledTensor) (N H W : Nat) :
    ∀ (n k : Nat), k ≤ n → chanOffset inputs N H W k ≤ chanOffset inputs N H W n := by
  intro n
  induction n with
  | zero =>
    intro k hk
    have : k = 0 := by omega
    subst this
    exact Nat.le_refl _
  | succ n ih =>
    intro k hk
    by_cases hkn : k = n + 1
    · subst hkn
      exact Nat.le_refl _
    · have h1 := ih k (by omega)
      have h2 : chanOffset inputs N H W (n + 1)
          = chanOffset inputs N H W n + (inputs.tile (inputs.index N H W n)).shape.get 3 := by
        simp [chanOffset, List.range_succ]
      omega

/-! ### Claims on `runNHWC` -/

/-- C1: when the output grid has exactly one channel tile, every tile slot the
loops read exists, and the channel extents of the input tiles at each position
sum to at most the largest `int`, `runNHWC` completes without failure and, at
each (batch, row, column) tile position taken in loop order, invokes the pooling
kernel once per input channel tile `k`, on input tile `inputIdx(N,H,W,k)` and on
the single output tile `outputIdx(N,H,W,0)`, with `ofmapStart` the sum of the
channel extents `shape[3]` of the input tiles `0 .. k-1` at that position (0 for
`k = 0`, the first tile's channel count for `k = 1`); with `n` input channel
tiles that is `n` invocations at each of the positions.  Every tile passed is
the one stored in its slot, and every `ofmapStart` fits an `int`. -/
theorem runNHWC_output_untiled_on_channels (op : SmvPoolingOp)
    (inputs outputs : TiledTensor) (hout : outputs.shape.get 3 = 1)
    (hslots : ∀ N < inputs.shape.get 0, ∀ H < inputs.shape.get 1,
      ∀ W < inputs.shape.get 2,
        (∀ k < inputs.shape.get 3, inputs.index N H W k < inputs.size) ∧
        outputs.index N H W 0 < outputs.size)
    (hint : ∀ N < inputs.shape.get 0, ∀ H < inputs.shape.get 1,
      ∀ W < inputs.shape.get 2,
        ((List.range (inputs.shape.get 3)).map fun j =>
          (inputs.tile (inputs.index N H W j)).shape.get 3).sum ≤ 2147483647) :
    (runNHWC op inputs outputs).failure = none ∧
    kernelCalls (runNHWC op inputs outputs).trace =
      ((List.range (inputs.shape.get 0)).flatMap fun N =>
        (List.range (inputs.shape.get 1)).flatMap fun H =>
          (List.range (inputs.shape.get 2)).flatMap fun W =>
            (List.range (inputs.shape.get 3)).map fun k =>
              Event.invokePooling
                (if op.opType = OpType.MaxPooling then
                  PoolingKernel.smv_maxpooling_nhwc_vec_fxp
                else PoolingKernel.smv_avgpooling_nhwc_vec_fxp)
                (inputs.tile (inputs.index N H W k))
                (outputs.tile (outputs.index N H W 0))
                [ (inputs.tile (inputs.index N H W k)).shape.get 0,
                  (inputs.tile (inputs.index N H W k)).shape.get 1,
                  (inputs.tile (inputs.index N H W k)).shape.get 2,
                  (inputs.tile (inputs.index N H W k)).shape.get 3 ]
                [ (outputs.tile (outputs.index N H W 0)).shape.get 0,
                  (outputs.tile (outputs.index N H W 0)).shape.get 1,
                  (outputs.tile (outputs.index N H W 0)).shape.get 2,
                  (outputs.tile (outputs.index N H W 0)).shape.get 3 ]
                ((inputs.tile (inputs.index N H W k)).shape.getPadding 3)
                ((outputs.tile (outputs.index N H W 0)).shape.getPadding 3)
                op.poolingRowSize op.poolingColSize op.poolingRowStride
                op.poolingColStride
                ((List.range k).map fun j =>
                  (inputs.tile (inputs.index N H W j)).shape.get 3).sum) ∧
    (kernelCalls (runNHWC op inputs outputs).trace).length =
      inputs.shape.get 0 * inputs.shape.get 1 * inputs.shape.get 2 *
        inputs.shape.get 3 ∧
    (∀ N < inputs.shape.get 0, ∀ H < inputs.shape.get 1, ∀ W < inputs.shape.get 2,
      ∀ k < inputs.shape.get 3,
        inputs.tiles[inputs.index N H W k]? = some (inputs.tile (inputs.index N H W k)) ∧
        outputs.tiles[outputs.index N H W 0]?
          = some (outputs.tile (outputs.index N H W 0)) ∧
        ((List.range k).map fun j =>
          (inputs.tile (inputs.index N H W j)).shape.get 3).sum ≤ 2147483647) := by
  have hcalls := kernelCalls_runNHWC_single op inputs outputs hout
  refine ⟨failure_runNHWC_valid op inputs outputs (Or.inr hout), hcalls, ?_, ?_⟩
  · rw [hcalls]
    exact length_grid _ _ _ _ _
  · intro N hN H hH W hW k hk
    have hs := hslots N hN H hH W hW
    refine ⟨tile_eq_of_lt inputs _ (hs.1 k hk), tile_eq_of_lt outputs _ hs.2, ?_⟩
    exact Nat.le_trans (chanOffset_le inputs N H W _ k (Nat.le_of_lt hk)) (hint N hN H hH W hW)

/-- Witness of C1: two input channel tiles (16 and 8 channels) and one output
tile give exactly two invocations on the same output tile, with `ofmapStart` 0
and then 16. -/
theorem runNHWC_output_untiled_on_channels_witness :
    out1.shape.get 3 = 1 ∧
    (runNHWC (poolOp in2 out1) in2 out1).failure = none ∧
    kernelCalls (runNHWC (poolOp in2 out1) in2 out1).trace =
      [ Event.invokePooling PoolingKernel.smv_maxpooling_nhwc_vec_fxp
          (nhwcTile 1 1 8 8 16 0) (nhwcTile 11 1 4 4 24 0)
          [1, 8, 8, 16] [1, 4, 4, 24] 0 0 2 2 2 2 0,
        Event.invokePooling PoolingKernel.smv_maxpooling_nhwc_vec_fxp
          (nhwcTile 2 1 8 8 8 0) (nhwcTile 11 1 4 4 24 0)
          [1, 8, 8, 8] [1, 4, 4, 24] 0 0 2 2 2 2 16 ] := by
  have h := runNHWC_output_untiled_on_channels (poolOp in2 out1) in2 out1 (by decide)
    (by decide) (by decide)
  refine ⟨by decide, h.1, h.2.1.trans ?_⟩
  decide

/-- C3: when every input grid extent and the output channel-tile count is at
least 1 and every tile slot the loops read exists, `runNHWC` ends in the
invalid-tiling-configuration failure if and only if the channel-tile counts
differ and the output count is not 1; in every other such case it terminates
without any failure. -/
theorem runNHWC_failure_iff (op : SmvPoolingOp) (inputs outputs : TiledTensor)
    (hB : 1 ≤ inputs.shape.get 0) (hR : 1 ≤ inputs.shape.get 1)
    (hW : 1 ≤ inputs.shape.get 2) (hin : 1 ≤ inputs.shape.get 3)
    (hout : 1 ≤ outputs.shape.get 3)
    (_hslots : ∀ N < inputs.shape.get 0, ∀ H < inputs.shape.get 1,
      ∀ W < inputs.shape.get 2,
        (∀ c < inputs.shape.get 3, inputs.index N H W c < inputs.size) ∧
        (∀ c < outputs.shape.get 3, outputs.index N H W c < outputs.size)) :
    ((runNHWC op inputs outputs).failure = some Failure.invalidTilingConfiguration ↔
      (inputs.shape.get 3 ≠ outputs.shape.get 3 ∧ outputs.shape.get 3 ≠ 1)) ∧
    (¬ (inputs.shape.get 3 ≠ outputs.shape.get 3 ∧ outputs.shape.get 3 ≠ 1) →
      (runNHWC op inputs outputs).failure = none) := by
  by_cases heq : inputs.shape.get 3 = outputs.shape.get 3
  · rw [runNHWC_equal op inputs outputs heq]
    simp [Outcome.emit, heq]
  · by_cases hone : outputs.shape.get 3 = 1
    · rw [runNHWC_single op inputs outputs hone]
      simp [Outcome.emit, hone]
    · rw [runNHWC_invalid op inputs outputs hB hR hW hin hout heq hone]
      simp [heq, hone]

/-- Witness of C3 at channel-tile counts 3 and 2, where the driver fails, and at
channel-tile counts 2 and 1, where it does not. -/
theorem runNHWC_failure_iff_witness :
    (runNHWC (poolOp in3 out2) in3 out2).failure
      = some Failure.invalidTilingConfiguration ∧
    (runNHWC (poolOp in2 out1) in2 out1).failure = none :=
  ⟨(runNHWC_failure_iff (poolOp in3 out2) in3 out2 (by decide) (by decide) (by decide)
      (by decide) (by decide) (by decide)).1.mpr (by decide),
   (runNHWC_failure_iff (poolOp in2 out1) in2 out1 (by decide) (by decide) (by decide)
      (by decide) (by decide) (by decide)).2 (by decide)⟩

/-- C6: when the input and output grids have the same channel-tile count and
every tile slot the loops read exists, `runNHWC` completes without failure; its
kernel invocations are, in order, those of the coordinates `(N, H, W, c)` of the
input grid enumerated with the batch outermost and the channel innermost, each
pairing input tile `inputIdx(N,H,W,c)` with output tile `outputIdx(N,H,W,c)` and
passing `ofmapStart = 0`; there are as many invocations as the product of the
four input grid extents, and every tile passed is the one stored in its slot. -/
theorem runNHWC_equal_channel_tiles (op : SmvPoolingOp) (inputs outputs : TiledTensor)
    (h : inputs.shape.get 3 = outputs.shape.get 3)
    (hslots : ∀ N < inputs.shape.get 0, ∀ H < inputs.shape.get 1,
      ∀ W < inputs.shape.get 2, ∀ c < inputs.shape.get 3,
        inputs.index N H W c < inputs.size ∧ outputs.index N H W c < outputs.size) :
    (runNHWC op inputs outputs).failure = none ∧
    kernelCalls (runNHWC op inputs outputs).trace =
      ((List.range (inputs.shape.get 0)).flatMap fun N =>
        (List.range (inputs.shape.get 1)).flatMap fun H =>
          (List.range (inputs.shape.get 2)).flatMap fun W =>
            (List.range (inputs.shape.get 3)).map fun c =>
              Event.invokePooling
                (if op.opType = OpType.MaxPooling then
                  PoolingKernel.smv_maxpooling_nhwc_vec_fxp
                else PoolingKernel.smv_avgpooling_nhwc_vec_fxp)
                (inputs.tile (inputs.index N H W c))
                (outputs.tile (outputs.index N H W c))
                [ (inputs.tile (inputs.index N H W c)).shape.get 0,
                  (inputs.tile (inputs.index N H W c)).shape.get 1,
                  (inputs.tile (inputs.index N H W c)).shape.get 2,
                  (inputs.tile (inputs.index N H W c)).shape.get 3 ]
                [ (outputs.tile (outputs.index N H W c)).shape.get 0,
                  (outputs.tile (outputs.index N H W c)).shape.get 1,
                  (outputs.tile (outputs.index N H W c)).shape.get 2,
                  (outputs.tile (outputs.index N H W c)).shape.get 3 ]
                ((inputs.tile (inputs.index N H W c)).shape.getPadding 3)
                ((outputs.tile (outputs.index N H W c)).shape.getPadding 3)
                op.poolingRowSize op.poolingColSize op.poolingRowStride
                op.poolingColStride 0) ∧
    (kernelCalls (runNHWC op inputs outputs).trace).length =
      inputs.shape.get 0 * inputs.shape.get 1 * inputs.shape.get 2 *
        inputs.shape.get 3 ∧
    (∀ N < inputs.shape.get 0, ∀ H < inputs.shape.get 1, ∀ W < inputs.shape.get 2,
      ∀ c < inputs.shape.get 3,
        inputs.tiles[inputs.index N H W c]? = some (inputs.tile (inputs.index N H W c)) ∧
        outputs.tiles[outputs.index N H W c]?
          = some (outputs.tile (outputs.index N H W c))) := by
  have hcalls := kernelCalls_runNHWC_equal op inputs outputs h
  refine ⟨failure_runNHWC_valid op inputs outputs (Or.inl h), hcalls, ?_, ?_⟩
  · rw [hcalls]
    exact length_grid _ _ _ _ _
  · intro N hN H hH W hW c hc
    have hs := hslots N hN H hH W hW c hc
    exact ⟨tile_eq_of_lt inputs _ hs.1, tile_eq_of_lt outputs _ hs.2⟩

/-- Witness of C6: a grid of two row tiles by two channel tiles on both sides
gives four invocations, the channel index varying fastest. -/
theorem runNHWC_equal_channel_tiles_witness :
    inRows.shape.get 3 = outRows.shape.get 3 ∧
    kernelCalls (runNHWC (poolOp inRows outRows) inRows outRows).trace =
      [ Event.invokePooling PoolingKernel.smv_maxpooling_nhwc_vec_fxp
          (nhwcTile 1 1 4 8 16 0) (nhwcTile 11 1 2 4 16 0)
          [1, 4, 8, 16] [1, 2, 4, 16] 0 0 2 2 2 2 0,
        Event.invokePooling PoolingKernel.smv_maxpooling_nhwc_vec_fxp
          (nhwcTile 2 1 4 8 8 0) (nhwcTile 12 1 2 4 8 0)
          [1, 4, 8, 8] [1, 2, 4, 8] 0 0 2 2 2 2 0,
        Event.invokePooling PoolingKernel.smv_maxpooling_nhwc_vec_fxp
          (nhwcTile 3 1 4 8 16 0) (nhwcTile 13 1 2 4 16 0)
          [1, 4, 8, 16] [1, 2, 4, 16] 0 0 2 2 2 2 0,
        Event.invokePooling PoolingKernel.smv_maxpooling_nhwc_vec_fxp
          (nhwcTile 4 1 4 8 8 0) (nhwcTile 14 1 2 4 8 0)
          [1, 4, 8, 8] [1, 2, 4, 8] 0 0 2 2 2 2 0 ] ∧
    (kernelCalls (runNHWC (poolOp inRows outRows) inRows outRows).trace).length = 4 := by
  have h := runNHWC_equal_channel_tiles (poolOp inRows outRows) inRows outRows (by decide)
    (by decide)
  refine ⟨by decide, h.2.1.trans ?_, h.2.2.1.trans ?_⟩
  · decide
  · decide

/-- C10 fails as stated: an input grid of one tile and an output grid of two
batch tiles differ in their batch tile counts, every slot read exists, and
`runNHWC` dispatches the input tile to the first output tile without any
failure. -/
theorem runNHWC_batch_mismatch_not_rejected :
    inOne.shape.get 0 ≠ outBatch2.shape.get 0 ∧
    (runNHWC (poolOp inOne outBatch2) inOne outBatch2).failure = none ∧
    kernelCalls (runNHWC (poolOp inOne outBatch2) inOne outBatch2).trace =
      [ Event.invokePooling PoolingKernel.smv_maxpooling_nhwc_vec_fxp
          (nhwcTile 1 1 8 8 24 0) (nhwcTile 11 1 4 4 24 0)
          [1, 8, 8, 24] [1, 4, 4, 24] 0 0 2 2 2 2 0 ] := by
  rw [runNHWC_equal (poolOp inOne outBatch2) inOne outBatch2 (by decide)]
  decide

/-- C10 amended: a difference between the batch, row or column tile counts of
the two grids is not checked by `runNHWC`.  For such a pair in which every tile
slot the loops read exists, when the channel-tile counts are equal or the output
channel-tile count is 1, the driver completes without failure and invokes the
kernel once per tile of the input grid. -/
theorem runNHWC_ignores_batch_row_col_mismatch (op : SmvPoolingOp)
    (inputs outputs : TiledTensor)
    (_hdiff : inputs.shape.get 0 ≠ outputs.shape.get 0 ∨
      inputs.shape.get 1 ≠ outputs.shape.get 1 ∨
      inputs.shape.get 2 ≠ outputs.shape.get 2)
    (_hslots : ∀ N < inputs.shape.get 0, ∀ H < inputs.shape.get 1,
      ∀ W < inputs.shape.get 2,
        (∀ c < inputs.shape.get 3, inputs.index N H W c < inputs.size) ∧
        (∀ c < outputs.shape.get 3, outputs.index N H W c < outputs.size))
    (hchan : inputs.shape.get 3 = outputs.shape.get 3 ∨ outputs.shape.get 3 = 1) :
    (runNHWC op inputs outputs).failure = none ∧
    (kernelCalls (runNHWC op inputs outputs).trace).length =
      inputs.shape.get 0 * inputs.shape.get 1 * inputs.shape.get 2 * inputs.shape.get 3 := by
  refine ⟨failure_runNHWC_valid op inputs outputs hchan, ?_⟩
  rcases hchan with heq | hone
  · rw [kernelCalls_runNHWC_equal op inputs outputs heq]
    exact length_grid _ _ _ _ _
  · rw [kernelCalls_runNHWC_single op inputs outputs hone]
    exact length_grid _ _ _ _ _

/-- Witness of the amended C10 on grids whose batch tile counts are 1 and 2. -/
theorem runNHWC_ignores_batch_row_col_mismatch_witness :
    (runNHWC (poolOp inOne outBatch2) inOne outBatch2).failure = none ∧
    (kernelCalls (runNHWC (poolOp inOne outBatch2) inOne outBatch2).trace).length = 1 :=
  runNHWC_ignores_batch_row_col_mismatch (poolOp inOne outBatch2) inOne outBatch2
    (Or.inl (by decide)) (by decide) (Or.inl (by decide))

end SmvPoolingOp

/-! ## The elementwise dispatch driver -/

namespace SmvEltwiseMulOp

theorem runX_eq (op : SmvEltwiseMulOp) (inputs0 inputs1 outputs : TiledTensor)
    (h : inputs0.size = inputs1.size ∧ inputs0.size = outputs.size) :
    runX op inputs0 inputs1 outputs =
      Outcome.emit
        ([ Event.setArrayMemType HostArray.host_inputs0 op.inputsMemType,
           Event.setArrayMemType HostArray.host_inputs1 op.inputsMemType,
           Event.setArrayMemType HostArray.host_results op.outputsMemType ] ++
          (List.range inputs0.size).flatMap fun i =>
            (runXTile inputs0 inputs1 outputs i).trace) := by
  have hloop := forEach_emit (List.range inputs0.size) (runXTile inputs0 inputs1 outputs)
    (fun i => (runXTile inputs0 inputs1 outputs i).trace) (fun i _ => rfl)
  unfold runX
  rw [if_pos h, hloop]
  rfl

theorem runX_mismatch (op : SmvEltwiseMulOp) (inputs0 inputs1 outputs : TiledTensor)
    (h : ¬ (inputs0.size = inputs1.size ∧ inputs0.size = outputs.size)) :
    runX op inputs0 inputs1 outputs = ⟨[], some Failure.tileCountMismatch⟩ := by
  unfold runX
  rw [if_neg h]
  rfl

theorem kernelCalls_runX (op : SmvEltwiseMulOp) (inputs0 inputs1 outputs : TiledTensor)
    (h : inputs0.size = inputs1.size ∧ inputs0.size = outputs.size) :
    kernelCalls (runX op inputs0 inputs1 outputs).trace =
      (List.range inputs0.size).map fun i =>
        Event.invokeEltwiseMul (inputs0.tile i) (inputs1.tile i) (outputs.tile i)
          (inputs0.tile i).shape.storageSize := by
  rw [runX_eq op inputs0 inputs1 outputs h, emit_trace, kernelCalls_append,
    kernelCalls_flatMap, ← flatMap_singleton_eq_map]
  simp [kernelCalls, runXTile, Outcome.emit]

theorem mapCalls_runX (op : SmvEltwiseMulOp) (inputs0 inputs1 outputs : TiledTensor)
    (h : inputs0.size = inputs1.size ∧ inputs0.size = outputs.size) :
    mapCalls (runX op inputs0 inputs1 outputs).trace =
      (List.range inputs0.size).flatMap fun i =>
        [ Event.mapArrayToAccel HostArray.host_inputs0 (inputs0.tile i)
            ((inputs0.tile i).shape.storageSize * sizeofFloat16),
          Event.mapArrayToAccel HostArray.host_inputs1 (inputs1.tile i)
            ((inputs0.tile i).shape.storageSize * sizeofFloat16),
          Event.mapArrayToAccel HostArray.host_results (outputs.tile i)
            ((outputs.tile i).shape.storageSize * sizeofFloat16) ] := by
  rw [runX_eq op inputs0 inputs1 outputs h, emit_trace]
  simp [mapCalls, List.filter_flatMap, runXTile, Outcome.emit]

theorem storageDims_zero_padding (ds ps : List Nat) (h : ∀ p ∈ ps, p = 0) :
    TensorShape.storageDims ds ps = ds := by
  induction ds generalizing ps with
  | nil => rfl
  | cons d ds ih =>
    cases ps with
    | nil => simp [TensorShape.storageDims, ih [] (by simp)]
    | cons q qs =>
      have hq : q = 0 := h q (List.mem_cons_self q qs)
      have hqs : ∀ p ∈ qs, p = 0 := fun p hp => h p (List.mem_cons_of_mem q hp)
      simp [TensorShape.storageDims, hq, ih qs hqs]

/-! ### Claims on `runX` and `tile` -/

/-- C4 fails as stated: for a tile of 12 elements padded to 16, the work size
passed to the kernel is 16, the padded storage size, while the logical element
count of the tile is 12. -/
theorem runX_padded_tile_work_size :
    (kernelCalls (runX (eltOp 1 12 4 padA padB padC) padA padB padC).trace).map Event.workSize
      = [some 16] ∧
    (padA.tile 0).shape.size = 12 ∧
    (kernelCalls (runX (eltOp 1 12 4 padA padB padC) padA padB padC).trace).map Event.workSize
      ≠ [some (padA.tile 0).shape.size] := by
  rw [kernelCalls_runX (eltOp 1 12 4 padA padB padC) padA padB padC (by decide)]
  decide

/-- C4 amended: for every tile index `i`, the work size passed to the
elementwise kernel is the padded storage size of the first input's tile `i`,
the product of its padded per-axis extents; it is the logical element count
whenever the tile shape has no alignment padding. -/
theorem runX_work_size (op : SmvEltwiseMulOp) (inputs0 inputs1 outputs : TiledTensor)
    (h : inputs0.size = inputs1.size ∧ inputs0.size = outputs.size) :
    (kernelCalls (runX op inputs0 inputs1 outputs).trace).map Event.workSize =
      ((List.range inputs0.size).map fun i =>
        some (TensorShape.storageDims (inputs0.tile i).shape.dims
          (inputs0.tile i).shape.padding).prod) ∧
    (∀ i, (∀ p ∈ (inputs0.tile i).shape.padding, p = 0) →
      (inputs0.tile i).shape.storageSize = (inputs0.tile i).shape.size) := by
  constructor
  · rw [kernelCalls_runX op inputs0 inputs1 outputs h, List.map_map]
    rfl
  · intro i hp
    simp [TensorShape.storageSize, TensorShape.size, storageDims_zero_padding _ _ hp]

/-- Witness of the amended C4 on a padded tile. -/
theorem runX_work_size_witness :
    (padA.size = padB.size ∧ padA.size = padC.size) ∧
    (kernelCalls (runX (eltOp 1 12 4 padA padB padC) padA padB padC).trace).map Event.workSize =
      [some 16] := by
  have h := runX_work_size (eltOp 1 12 4 padA padB padC) padA padB padC (by decide)
  exact ⟨by decide, h.1.trans (by decide)⟩

/-- C5: when the three tiled tensors have the same number of tiles `n`, `runX`
completes without failure and invokes the elementwise kernel exactly `n` times,
the `i`-th invocation on the tiles `inputs0[i]`, `inputs1[i]` and `outputs[i]`,
for `i` increasing from 0; when the three tile counts are not all equal, it
fails its entry assertion with an empty trace, so before any mapping or kernel
invocation. -/
theorem runX_dispatch (op : SmvEltwiseMulOp) (inputs0 inputs1 outputs : TiledTensor) :
    (inputs0.size = inputs1.size ∧ inputs0.size = outputs.size →
      (runX op inputs0 inputs1 outputs).failure = none ∧
      (kernelCalls (runX op inputs0 inputs1 outputs).trace).length = inputs0.size ∧
      kernelCalls (runX op inputs0 inputs1 outputs).trace =
        (List.range inputs0.size).map fun i =>
          Event.invokeEltwiseMul (inputs0.tile i) (inputs1.tile i) (outputs.tile i)
            (inputs0.tile i).shape.storageSize) ∧
    (¬ (inputs0.size = inputs1.size ∧ inputs0.size = outputs.size) →
      (runX op inputs0 inputs1 outputs).failure = some Failure.tileCountMismatch ∧
      (runX op inputs0 inputs1 outputs).trace = []) := by
  constructor
  · intro h
    refine ⟨?_, ?_, kernelCalls_runX op inputs0 inputs1 outputs h⟩
    · rw [runX_eq op inputs0 inputs1 outputs h]
      rfl
    · rw [kernelCalls_runX op inputs0 inputs1 outputs h]
      simp
  · intro h
    rw [runX_mismatch op inputs0 inputs1 outputs h]
    exact ⟨rfl, rfl⟩

/-- Witness of C5: two tiles per tensor give two invocations, tile 0 first; a
first input of two tiles against a second input of one tile fails at entry. -/
theorem runX_dispatch_witness :
    kernelCalls (runX (eltOp 2 16 0 eltA eltB eltC) eltA eltB eltC).trace =
      [ Event.invokeEltwiseMul (ncTile 1 1 16 0) (ncTile 3 1 16 0) (ncTile 5 1 16 0) 16,
        Event.invokeEltwiseMul (ncTile 2 1 16 0) (ncTile 4 1 16 0) (ncTile 6 1 16 0) 16 ] ∧
    (runX (eltOp 2 16 0 eltA shortB eltC) eltA shortB eltC).failure
      = some Failure.tileCountMismatch ∧
    (runX (eltOp 2 16 0 eltA shortB eltC) eltA shortB eltC).trace = [] := by
  have h1 := (runX_dispatch (eltOp 2 16 0 eltA eltB eltC) eltA eltB eltC).1 (by decide)
  have h2 := (runX_dispatch (eltOp 2 16 0 eltA shortB eltC) eltA shortB eltC).2 (by decide)
  exact ⟨h1.2.2.trans (by decide), h2.1, h2.2⟩

/-- C7: for an element size `e > 0`, the maximum tile element count computed by
`tile` from the scratchpad capacity `S` and the input storage size `n` is
`min (S / e) n` with floor division; it is at most `n`, it fits the scratchpad
(`m * e ≤ S`), and it is `n` exactly when `n * e ≤ S`. -/
theorem maxTileSize_spec (S e n : Nat) (he : 0 < e) :
    maxTileSize S e n = min (S / e) n ∧
    maxTileSize S e n ≤ n ∧
    maxTileSize S e n * e ≤ S ∧
    (maxTileSize S e n = n ↔ n * e ≤ S) := by
  unfold maxTileSize
  refine ⟨rfl, Nat.min_le_right _ _, ?_, ?_⟩
  · calc min (S / e) n * e ≤ (S / e) * e := Nat.mul_le_mul_right e (Nat.min_le_left _ _)
      _ ≤ S := Nat.div_mul_le_self S e
  · rw [min_eq_right_iff, Nat.le_div_iff_mul_le he]

/-- Witness of C7: a 32768-byte scratchpad and 2-byte elements hold 16384
elements, so a tensor of 32 elements is a single tile and one of 20000 is
not. -/
theorem maxTileSize_spec_witness :
    maxTileSize 32768 2 32 = 32 ∧ maxTileSize 32768 2 20000 = 16384 := by
  have h1 := maxTileSize_spec 32768 2 32 (by decide)
  have h2 := maxTileSize_spec 32768 2 20000 (by decide)
  exact ⟨h1.2.2.2.2 (by decide), h2.1.trans (by decide)⟩

/-- C9 fails as stated: with one tile per tensor, a first input tile of 16
elements and a second input tile of 8 elements, the second input tile is mapped
with 32 bytes, the byte size of the first input tile, while its own storage
size times the element size is 16 bytes. -/
theorem runX_input1_mapped_with_input0_size :
    (oneA.size = shortB.size ∧ oneA.size = oneC.size) ∧
    mapCalls (runX (eltOp 1 16 0 oneA shortB oneC) oneA shortB oneC).trace =
      [ Event.mapArrayToAccel HostArray.host_inputs0 (ncTile 1 1 16 0) 32,
        Event.mapArrayToAccel HostArray.host_inputs1 (ncTile 2 1 8 0) 32,
        Event.mapArrayToAccel HostArray.host_results (ncTile 3 1 16 0) 32 ] ∧
    (shortB.tile 0).shape.storageSize * sizeofFloat16 = 16 := by
  rw [mapCalls_runX (eltOp 1 16 0 oneA shortB oneC) oneA shortB oneC (by decide)]
  decide

/-- C9 amended: given that the three tiled tensors have the same number of
tiles, for every tile index `i` the first input tile and the output tile are
each mapped with their own padded storage size times the element size, and the
second input tile is mapped with the padded storage size of the first input
tile times the element size, which is its own byte size whenever the two input
tiles have the same storage size. -/
theorem runX_map_sizes (op : SmvEltwiseMulOp) (inputs0 inputs1 outputs : TiledTensor)
    (h : inputs0.size = inputs1.size ∧ inputs0.size = outputs.size) :
    mapCalls (runX op inputs0 inputs1 outputs).trace =
      ((List.range inputs0.size).flatMap fun i =>
        [ Event.mapArrayToAccel HostArray.host_inputs0 (inputs0.tile i)
            ((inputs0.tile i).shape.storageSize * sizeofFloat16),
          Event.mapArrayToAccel HostArray.host_inputs1 (inputs1.tile i)
            ((inputs0.tile i).shape.storageSize * sizeofFloat16),
          Event.mapArrayToAccel HostArray.host_results (outputs.tile i)
            ((outputs.tile i).shape.storageSize * sizeofFloat16) ]) ∧
    ((∀ i, (inputs1.tile i).shape.storageSize = (inputs0.tile i).shape.storageSize) →
      mapCalls (runX op inputs0 inputs1 outputs).trace =
        (List.range inputs0.size).flatMap fun i =>
          [ Event.mapArrayToAccel HostArray.host_inputs0 (inputs0.tile i)
              ((inputs0.tile i).shape.storageSize * sizeofFloat16),
            Event.mapArrayToAccel HostArray.host_inputs1 (inputs1.tile i)
              ((inputs1.tile i).shape.storageSize * sizeofFloat16),
            Event.mapArrayToAccel HostArray.host_results (outputs.tile i)
              ((outputs.tile i).shape.storageSize * sizeofFloat16) ]) := by
  refine ⟨mapCalls_runX op inputs0 inputs1 outputs h, fun hs => ?_⟩
  rw [mapCalls_runX op inputs0 inputs1 outputs h]
  simp only [hs]

/-- Witness of the amended C9 on tiles of equal shapes. -/
theorem runX_map_sizes_witness :
    mapCalls (runX (eltOp 1 12 4 padA padB padC) padA padB padC).trace =
      [ Event.mapArrayToAccel HostArray.host_inputs0 (ncTile 1 1 12 4) 32,
        Event.mapArrayToAccel HostArray.host_inputs1 (ncTile 2 1 12 4) 32,
        Event.mapArrayToAccel HostArray.host_results (ncTile 3 1 12 4) 32 ] ∧
    (padB.tile 0).shape.storageSize * sizeofFloat16 = 32 := by
  have h := runX_map_sizes (eltOp 1 12 4 padA padB padC) padA padB padC (by decide)
  exact ⟨h.1.trans (by decide), by decide⟩

end SmvEltwiseMulOp

/-! ## The operator lifecycles -/

theorem mem_andThen_trace (a b : Outcome) (e : Event) (h : e ∈ (a.andThen b).trace) :
    e ∈ a.trace ∨ e ∈ b.trace := by
  unfold Outcome.andThen at h
  cases hf : a.failure with
  | none =>
    rw [hf] at h
    exact List.mem_append.mp h
  | some f =>
    rw [hf] at h
    exact Or.inl h

theorem forEach_trace_forall (P : Event → Prop) (l : List Nat) (body : Nat → Outcome)
    (h : ∀ i, ∀ e ∈ (body i).trace, P e) : ∀ e ∈ (forEach l body).trace, P e := by
  induction l with
  | nil =>
    intro e he
    simp [forEach, Outcome.emit] at he
  | cons i rest ih =>
    intro e he
    rcases mem_andThen_trace _ _ e he with h1 | h2
    · exact h i e h1
    · exact ih e h2

theorem dispatchTile_not_lifecycle (op : SmvPoolingOp) (a b : Tensor) (k : Nat) :
    ∀ e ∈ op.dispatchTile a b k, e.isLifecycle = false := by
  intro e he
  simp only [SmvPoolingOp.dispatchTile, SmvPoolingOp.invoke, List.mem_cons,
    List.mem_singleton, List.not_mem_nil, or_false] at he
  rcases he with rfl | rfl | rfl | rfl <;> rfl

theorem channelLoop_not_lifecycle (op : SmvPoolingOp) (inputs outputs : TiledTensor)
    (inC outC N H W : Nat) :
    ∀ (m iC oC off : Nat), inC - iC ≤ m →
      ∀ e ∈ (SmvPoolingOp.channelLoop op inputs outputs inC outC N H W iC oC off).trace,
        e.isLifecycle = false := by
  intro m
  induction m with
  | zero =>
    intro iC oC off hm e he
    rw [SmvPoolingOp.channelLoop, if_neg (by omega)] at he
    simp [Outcome.emit] at he
  | succ m ih =>
    intro iC oC off hm e he
    rw [SmvPoolingOp.channelLoop] at he
    by_cases hc : iC < inC ∧ oC < outC
    · rw [if_pos hc] at he
      simp only [] at he
      split at he
      · rcases mem_andThen_trace _ _ e he with h1 | h2
        · exact dispatchTile_not_lifecycle op _ _ _ e h1
        · exact ih _ _ _ (by omega) e h2
      · split at he
        · rcases mem_andThen_trace _ _ e he with h1 | h2
          · exact dispatchTile_not_lifecycle op _ _ _ e h1
          · exact ih _ _ _ (by omega) e h2
        · rcases mem_andThen_trace _ _ e he with h1 | h2
          · exact dispatchTile_not_lifecycle op _ _ _ e h1
          · simp [Outcome.abort] at h2
    · rw [if_neg hc] at he
      simp [Outcome.emit] at he

theorem runNHWC_not_lifecycle (op : SmvPoolingOp) (inputs outputs : TiledTensor) :
    ∀ e ∈ (SmvPoolingOp.runNHWC op inputs outputs).trace, e.isLifecycle = false := by
  intro e he
  unfold SmvPoolingOp.runNHWC at he
  rcases mem_andThen_trace _ _ e he with h1 | h2
  · simp only [Outcome.emit, List.mem_cons, List.mem_singleton, List.not_mem_nil,
      or_false] at h1
    rcases h1 with rfl | rfl <;> rfl
  · refine forEach_trace_forall (fun e => e.isLifecycle = false) _ _ (fun N => ?_) e h2
    refine forEach_trace_forall (fun e => e.isLifecycle = false) _ _ (fun H => ?_)
    refine forEach_trace_forall (fun e => e.isLifecycle = false) _ _ (fun W => ?_)
    exact channelLoop_not_lifecycle op inputs outputs _ _ N H W _ 0 0 0 (Nat.le_refl _)

theorem runX_not_lifecycle (op : SmvEltwiseMulOp) (inputs0 inputs1 outputs : TiledTensor) :
    ∀ e ∈ (SmvEltwiseMulOp.runX op inputs0 inputs1 outputs).trace,
      e.isLifecycle = false := by
  intro e he
  unfold SmvEltwiseMulOp.runX at he
  split at he
  · rcases mem_andThen_trace _ _ e he with h1 | h2
    · simp only [Outcome.emit, List.mem_cons, List.mem_singleton, List.not_mem_nil,
        or_false] at h1
      rcases h1 with rfl | rfl | rfl <;> rfl
    · refine forEach_trace_forall (fun e => e.isLifecycle = false) _ _ (fun i => ?_) e h2
      intro e he
      simp only [SmvEltwiseMulOp.runXTile, Outcome.emit, List.mem_cons, List.mem_singleton,
        List.not_mem_nil, or_false] at he
      rcases he with rfl | rfl | rfl | rfl | rfl | rfl <;> rfl
  · simp [Outcome.abort] at he

/-- The trace of a lifecycle: staging, then the driver, then the flattening
when the driver did not abort. -/
theorem lifecycle_eq (staging : List Event) (d : Outcome) (fl : Event) :
    (Outcome.emit staging).andThen (d.andThen (Outcome.emit [fl])) =
      ⟨staging ++ d.trace ++
          (match d.failure with
           | none => [fl]
           | some _ => []),
        d.failure⟩ := by
  cases d with
  | mk t f =>
    cases f with
    | none => simp [Outcome.andThen, Outcome.emit]
    | some f => simp [Outcome.andThen, Outcome.emit]

/-- In a trace made of staging events, driver events and a final flattening,
no kernel invocation follows a flattening event. -/
theorem no_kernel_after_flatten (staging dtrace tail pre post : List Event)
    (hs : ∀ e ∈ staging, e.isFlatten = false)
    (hd : ∀ e ∈ dtrace, e.isLifecycle = false)
    (ht : kernelCalls tail = [])
    (h : staging ++ dtrace ++ tail = pre ++ post)
    (hpre : pre.filter Event.isFlatten ≠ []) :
    kernelCalls post = [] := by
  have hx : ∀ e ∈ staging ++ dtrace, e.isFlatten = false := by
    intro e he
    rcases List.mem_append.mp he with h1 | h2
    · exact hs e h1
    · have := hd e h2
      simp only [Event.isLifecycle, Bool.or_eq_false_iff] at this
      exact this.2
  rcases List.append_eq_append_iff.mp h with ⟨a, _, htail⟩ | ⟨c, hc, _⟩
  · rw [htail, kernelCalls_append] at ht
    exact (List.append_eq_nil.mp ht).2
  · exfalso
    apply hpre
    rw [List.filter_eq_nil_iff]
    intro e he
    have : e ∈ staging ++ dtrace := by
      rw [hc]
      exact List.mem_append.mpr (Or.inl he)
    simp [hx e this]

/-- C8 fails as stated: a pooling operator whose tensors are NHWC passes the
entry checks of `run`, but with channel-tile counts 3 and 2 the dispatch driver
aborts, and the trace of `run` has a kernel invocation and no flattening
event. -/
theorem run_without_flatten :
    ((poolOp in3 out2).input.shape.layout = DataLayout.NHWC ∧
      (poolOp in3 out2).output.shape.layout = DataLayout.NHWC) ∧
    (SmvPoolingOp.run (poolOp in3 out2)).failure
      = some Failure.invalidTilingConfiguration ∧
    (kernelCalls (SmvPoolingOp.run (poolOp in3 out2)).trace).length = 1 ∧
    (SmvPoolingOp.run (poolOp in3 out2)).trace.filter Event.isFlatten = [] := by
  have hd : SmvPoolingOp.runNHWC (poolOp in3 out2) (poolOp in3 out2).tiledTensors0
      (poolOp in3 out2).tiledTensors1 = _ :=
    SmvPoolingOp.runNHWC_invalid (poolOp in3 out2) in3 out2 (by decide) (by decide)
      (by decide) (by decide) (by decide) (by decide) (by decide)
  unfold SmvPoolingOp.run
  rw [if_pos (by decide), lifecycle_eq, hd]
  decide

/-- C8 amended: for both `SmvEltwiseMulOp::run` and `SmvPoolingOp::run`, on
every input that passes the entry checks, the trace is the staging of every
input tiled tensor (and not of the output one), followed by the trace of one
call of the dispatch driver, followed, when the driver did not abort, by exactly
one flattening of the output tiled tensor; when the driver aborts, `run` aborts
with the same failure and without flattening.  The driver's trace holds no
staging or flattening event, and no kernel invocation follows a flattening
event. -/
theorem run_phases :
    (∀ op : SmvEltwiseMulOp,
      (op.inputs0.shape.same op.inputs1.shape ∧ op.inputs0.shape.same op.outputs.shape) →
        (SmvEltwiseMulOp.run op).trace =
          [Event.copyDataToAllTiles 0, Event.copyDataToAllTiles 1] ++
            (SmvEltwiseMulOp.runX op op.tiledTensors0 op.tiledTensors1
              op.tiledTensors2).trace ++
            (match (SmvEltwiseMulOp.runX op op.tiledTensors0 op.tiledTensors1
                op.tiledTensors2).failure with
             | none => [Event.flattenTiledTensor 2]
             | some _ => []) ∧
        (SmvEltwiseMulOp.run op).failure =
          (SmvEltwiseMulOp.runX op op.tiledTensors0 op.tiledTensors1
            op.tiledTensors2).failure ∧
        (∀ e ∈ (SmvEltwiseMulOp.runX op op.tiledTensors0 op.tiledTensors1
            op.tiledTensors2).trace, e.isStaging = false ∧ e.isFlatten = false) ∧
        (∀ pre post, (SmvEltwiseMulOp.run op).trace = pre ++ post →
          pre.filter Event.isFlatten ≠ [] → kernelCalls post = [])) ∧
    (∀ op : SmvPoolingOp,
      (op.input.shape.layout = DataLayout.NHWC ∧ op.output.shape.layout = DataLayout.NHWC) →
        (SmvPoolingOp.run op).trace =
          [Event.copyDataToAllTiles 0] ++
            (SmvPoolingOp.runNHWC op op.tiledTensors0 op.tiledTensors1).trace ++
            (match (SmvPoolingOp.runNHWC op op.tiledTensors0 op.tiledTensors1).failure with
             | none => [Event.untile 1]
             | some _ => []) ∧
        (SmvPoolingOp.run op).failure =
          (SmvPoolingOp.runNHWC op op.tiledTensors0 op.tiledTensors1).failure ∧
        (∀ e ∈ (SmvPoolingOp.runNHWC op op.tiledTensors0 op.tiledTensors1).trace,
          e.isStaging = false ∧ e.isFlatten = false) ∧
        (∀ pre post, (SmvPoolingOp.run op).trace = pre ++ post →
          pre.filter Event.isFlatten ≠ [] → kernelCalls post = [])) := by
  constructor
  · intro op hchk
    have hd := runX_not_lifecycle op op.tiledTensors0 op.tiledTensors1 op.tiledTensors2
    unfold SmvEltwiseMulOp.run
    rw [if_pos hchk, lifecycle_eq]
    refine ⟨rfl, rfl, ?_, ?_⟩
    · intro e he
      simpa [Event.isLifecycle] using hd e he
    · intro pre post hsplit hpre
      refine no_kernel_after_flatten _ _ _ pre post ?_ hd ?_ hsplit hpre
      · intro e he
        simp only [List.mem_cons, List.mem_singleton, List.not_mem_nil, or_false] at he
        rcases he with rfl | rfl <;> rfl
      · cases (SmvEltwiseMulOp.runX op op.tiledTensors0 op.tiledTensors1
          op.tiledTensors2).failure <;> rfl
  · intro op hchk
    have hd := runNHWC_not_lifecycle op op.tiledTensors0 op.tiledTensors1
    unfold SmvPoolingOp.run
    rw [if_pos hchk, lifecycle_eq]
    refine ⟨rfl, rfl, ?_, ?_⟩
    · intro e he
      simpa [Event.isLifecycle] using hd e he
    · intro pre post hsplit hpre
      refine no_kernel_after_flatten _ _ _ pre post ?_ hd ?_ hsplit hpre
      · intro e he
        simp only [List.mem_singleton] at he
        subst he
        rfl
      · cases (SmvPoolingOp.runNHWC op op.tiledTensors0 op.tiledTensors1).failure <;> rfl

/-- Witness of the amended C8: an elementwise operator over two tiles per
tensor and a pooling operator over two input channel tiles and one output tile
both pass their entry checks, and each trace ends with its single flattening
event. -/
theorem run_phases_witness :
    ((eltOp 2 16 0 eltA eltB eltC).inputs0.shape.same
        (eltOp 2 16 0 eltA eltB eltC).inputs1.shape ∧
      (eltOp 2 16 0 eltA eltB eltC).inputs0.shape.same
        (eltOp 2 16 0 eltA eltB eltC).outputs.shape) ∧
    (SmvEltwiseMulOp.run (eltOp 2 16 0 eltA eltB eltC)).trace.filter Event.isLifecycle =
      [Event.copyDataToAllTiles 0, Event.copyDataToAllTiles 1, Event.flattenTiledTensor 2] ∧
    (SmvPoolingOp.run (poolOp in2 out1)).trace.filter Event.isLifecycle =
      [Event.copyDataToAllTiles 0, Event.untile 1] := by
  have h1 := (run_phases.1 (eltOp 2 16 0 eltA eltB eltC) (by decide)).1
  have h2 := (run_phases.2 (poolOp in2 out1) (by decide)).1
  rw [SmvEltwiseMulOp.runX_eq _ _ _ _ (by decide)] at h1
  rw [SmvPoolingOp.runNHWC_single _ _ _ (by decide)] at h2
  rw [h1, h2]
  exact ⟨by decide, by decide, by decide⟩

end Smaug
